import Mathlib

/-!
go-wiringPi v2.44: board identification and register mapping.

A shallow embedding of `wiringPi/raspberry.go`:

* `piBoardId` (lines 197-346) as a function of the outcome of reading
  `/proc/cpuinfo`;
* `piGPIOLayout` (lines 163-195) likewise;
* `Init` (lines 48-116) as a function of the outcome of the two device opens,
  of the cpuinfo read and of the four `mmap` calls, passing the four
  process-wide register arrays explicitly and recording the system calls made.

A Go `string` is a sequence of bytes; it is embedded as a list of byte values.
A run-time panic (index out of range) is an `Except.error`.
-/

set_option autoImplicit false

namespace WiringPi

/-! ## Go strings and the library functions the source calls -/

/-- A Go string: its bytes, each a value in `0..255`. -/
abbrev GoString := List Nat

/-- UTF-8 encoding of one code point. -/
def utf8Encode (r : Nat) : GoString :=
  if r < 0x80 then [r]
  else if r < 0x800 then [0xC0 + r / 0x40, 0x80 + r % 0x40]
  else if r < 0x10000 then [0xE0 + r / 0x1000, 0x80 + r / 0x40 % 0x40, 0x80 + r % 0x40]
  else [0xF0 + r / 0x40000, 0x80 + r / 0x1000 % 0x40, 0x80 + r / 0x40 % 0x40, 0x80 + r % 0x40]

/-- The bytes of a string literal. -/
def str (s : String) : GoString :=
  s.toList.flatMap fun c => utf8Encode c.toNat

/-- The code points for which Go's `unicode.IsSpace` holds. -/
def spaceRunes : List Nat :=
  [0x09, 0x0A, 0x0B, 0x0C, 0x0D, 0x20, 0x85, 0xA0, 0x1680,
   0x2000, 0x2001, 0x2002, 0x2003, 0x2004, 0x2005, 0x2006, 0x2007, 0x2008, 0x2009, 0x200A,
   0x2028, 0x2029, 0x202F, 0x205F, 0x3000]

/-- Width in bytes of the white-space rune `s` starts with, `0` when it starts with none. -/
def leadingSpace (s : GoString) : Nat :=
  match (spaceRunes.map utf8Encode).find? fun e => e.isPrefixOf s with
  | some e => e.length
  | none => 0

/-- Width in bytes of the white-space rune `s` ends with, `0` when it ends with none. -/
def trailingSpace (s : GoString) : Nat :=
  match (spaceRunes.map utf8Encode).find? fun e => e.reverse.isPrefixOf s.reverse with
  | some e => e.length
  | none => 0

/-- Drop leading white-space runes, at most `fuel` of them. -/
def trimLeftFuel : Nat → GoString → GoString
  | 0, s => s
  | fuel + 1, s =>
    match leadingSpace s with
    | 0 => s
    | k + 1 => trimLeftFuel fuel (s.drop (k + 1))

/-- Drop trailing white-space runes, at most `fuel` of them. -/
def trimRightFuel : Nat → GoString → GoString
  | 0, s => s
  | fuel + 1, s =>
    match trailingSpace s with
    | 0 => s
    | k + 1 => trimRightFuel fuel (s.take (s.length - (k + 1)))

/-- Go's `strings.TrimSpace`: the string without its leading and trailing white space.
Every rune removed takes at least one byte, so the length of the string is enough fuel. -/
def TrimSpace (s : GoString) : GoString :=
  let t := trimLeftFuel s.length s
  trimRightFuel t.length t

/-- Go's `strings.Split` for a one-byte separator, the only form the source calls:
the substrings between the separators, `[s]` when `s` has none. -/
def Split (sep : Nat) : GoString → List GoString
  | [] => [[]]
  | c :: rest =>
    if c = sep then [] :: Split sep rest
    else
      match Split sep rest with
      | [] => [[c]]
      | f :: fs => (c :: f) :: fs

/-- The errors the functions of the package return. -/
inductive GoError where
  /-- The `ErrRevision` value of `piBoardId`: "Unable to determine boardinfo ...". -/
  | errRevision
  /-- The `ErrHardWare` value of `piGPIOLayout`: "Unable to determine hardware version ...". -/
  | errHardWare
  /-- The error of `ioutil.ReadFile`. -/
  | readFile
  /-- A `strconv.NumError` wrapping `strconv.ErrSyntax`. -/
  | numSyntaxErr (func num : GoString)
  /-- A `strconv.NumError` wrapping `strconv.ErrRange`. -/
  | numRangeErr (func num : GoString)
  /-- The error "can not open /dev/mem  or /dev/gpiomem, maybe try sudo". -/
  | cannotOpen
  /-- The error "mmap (GPIO) failed". -/
  | mmapGpioFailed
  /-- The error "mmap (PWM) failed". -/
  | mmapPwmFailed
  /-- The error "mmap (CLOCK) failed". -/
  | mmapClockFailed
  /-- The error "mmap (PADS) failed". -/
  | mmapPadsFailed
  deriving DecidableEq, Repr

/-- A Go run-time panic. -/
inductive GoPanic where
  /-- The panic "index out of range [index] with length length". -/
  | indexOutOfRange (index length : Nat)
  deriving DecidableEq, Repr

deriving instance DecidableEq for Except

/-- The `lower` helper of `strconv`: `c | ('x' - 'X')`. -/
def lower (c : Nat) : Nat := c ||| 0x20

/-- The digit a byte stands for in the loop of `strconv.ParseUint`: `c - '0'` for
`0-9`, `lower(c) - 'a' + 10` for a letter, none for any other byte. -/
def digitValue (c : Nat) : Option Nat :=
  if 0x30 ≤ c ∧ c ≤ 0x39 then some (c - 0x30)
  else if 0x61 ≤ lower c ∧ lower c ≤ 0x7A then some (lower c - 0x61 + 10)
  else none

/-- The digit loop of `strconv.ParseUint` for a base in `2..36`, run on the bytes left to
read with the value `n` accumulated so far (a `uint64`). -/
def parseDigits (s0 : GoString) (base cutoff maxVal : Nat) : GoString → Nat → Nat × Option GoError
  | [], n => (n, none)
  | c :: cs, n =>
    match digitValue c with
    | none => (0, some (.numSyntaxErr (str "ParseUint") s0))
    | some d =>
      if d ≥ base then (0, some (.numSyntaxErr (str "ParseUint") s0))
      else if n ≥ cutoff then (maxVal, some (.numRangeErr (str "ParseUint") s0))
      else
        let n1 := (n * base + d) % 2 ^ 64
        if n1 < n * base ∨ n1 > maxVal then (maxVal, some (.numRangeErr (str "ParseUint") s0))
        else parseDigits s0 base cutoff maxVal cs n1

/-- Go's `strconv.ParseUint(s, base, bitSize)` for `2 ≤ base ≤ 36` and `1 ≤ bitSize ≤ 64`
(the source calls it with base 16 and bit size 32): the value and the error. -/
def ParseUint (s : GoString) (base bitSize : Nat) : Nat × Option GoError :=
  if s = [] then (0, some (.numSyntaxErr (str "ParseUint") s))
  else parseDigits s base ((2 ^ 64 - 1) / base + 1) (2 ^ bitSize - 1) s 0

/-! ## Constants of `raspberry.go` (lines 16-39) -/

def RPI_MODEL_A : Nat := 0
def RPI_MODEL_B : Nat := 1
def RPI_MODEL_A_PLUS : Nat := 2
def RPI_MODEL_B_PLUS : Nat := 3
def RPI_MODEL_2B : Nat := 4
def RPI_MODEL_ALPHA : Nat := 5
def RPI_MODEL_CM : Nat := 6
def RPI_MODEL_UNKNOWN : Nat := 7
def RPI_MODEL_3B : Nat := 8
def RPI_MODEL_ZERO : Nat := 9
def RPI_MODEL_CM3 : Nat := 10
def RPI_MODEL_ZERO_W : Nat := 12

def RPI_VERSION_1 : Nat := 0
def RPI_VERSION_1_1 : Nat := 1
def RPI_VERSION_1_2 : Nat := 2
def RPI_VERSION_2 : Nat := 3

def RPI_MAKER_SONY : Nat := 0
def RPI_MAKER_EGOMAN : Nat := 1
def RPI_MAKER_EMBEST : Nat := 2
def RPI_MAKER_UNKNOWN : Nat := 3

def uint32BlockSize : Nat := 4 * 1024

/-! ## `piBoardId` (lines 197-346) -/

/-- The seven results of `piBoardId`, in the order of its signature. -/
structure BoardId where
  pcbrev : Nat
  bmodel : Nat
  processor : Nat
  manufacturer : Nat
  ram : Nat
  bWarranty : Nat
  err : Option GoError
  deriving DecidableEq, Repr

/-- The loop of lines 212-222 over the lines still to visit, from the current values of
`ErrRevision` and `revisionValue` to their values when the loop is left. Indexing
`fields[1]` panics when the line has no colon. -/
def revisionLoop : List GoString → Option GoError → GoString →
    Except GoPanic (Option GoError × GoString)
  | [], ErrRevision, revisionValue => .ok (ErrRevision, revisionValue)
  | line :: rest, ErrRevision, revisionValue =>
    match Split 0x3A line with
    | [] => .error (.indexOutOfRange 0 0)
    | [_] => .error (.indexOutOfRange 1 1)
    | f0 :: f1 :: _ =>
      let key := TrimSpace f0
      let value := TrimSpace f1
      if key = str "Revision" then .ok (none, value)
      else revisionLoop rest ErrRevision revisionValue

/-- The `switch revisionValue` of lines 250-341, updating the named results. -/
def legacySwitch (revisionValue : GoString) (r : BoardId) : BoardId :=
  if revisionValue = str "0002" then
    { r with bmodel := RPI_MODEL_B, pcbrev := RPI_VERSION_1, ram := 0,
             manufacturer := RPI_MAKER_EGOMAN }
  else if revisionValue = str "0003" then
    { r with bmodel := RPI_MODEL_B, pcbrev := RPI_VERSION_1_1, ram := 0,
             manufacturer := RPI_MAKER_EGOMAN }
  else if revisionValue = str "0004" then
    { r with bmodel := RPI_MODEL_B, pcbrev := RPI_VERSION_1_2, ram := 0,
             manufacturer := RPI_MAKER_SONY }
  else if revisionValue = str "0005" ∨ revisionValue = str "0006" ∨
      revisionValue = str "000f" ∨ revisionValue = str "000d" then
    { r with bmodel := RPI_MODEL_B, pcbrev := RPI_VERSION_1_2, ram := 0,
             manufacturer := RPI_MAKER_EGOMAN }
  else if revisionValue = str "0007" ∨ revisionValue = str "0009" then
    { r with bmodel := RPI_MODEL_A, pcbrev := RPI_VERSION_1_2, ram := 0,
             manufacturer := RPI_MAKER_EGOMAN }
  else if revisionValue = str "0008" then
    { r with bmodel := RPI_MODEL_A, pcbrev := RPI_VERSION_1_2, ram := 0,
             manufacturer := RPI_MAKER_SONY }
  else if revisionValue = str "0010" ∨ revisionValue = str "0016" then
    { r with bmodel := RPI_MODEL_B_PLUS, pcbrev := RPI_VERSION_1_2, ram := 1,
             manufacturer := RPI_MAKER_SONY }
  else if revisionValue = str "0013" then
    { r with bmodel := RPI_MODEL_B_PLUS, pcbrev := RPI_VERSION_1_2, ram := 1,
             manufacturer := RPI_MAKER_EMBEST }
  else if revisionValue = str "0019" then
    { r with bmodel := RPI_MODEL_B_PLUS, pcbrev := RPI_VERSION_1_2, ram := 1,
             manufacturer := RPI_MAKER_EGOMAN }
  else if revisionValue = str "0011" ∨ revisionValue = str "0017" then
    { r with bmodel := RPI_MODEL_CM, pcbrev := RPI_VERSION_1_1, ram := 1,
             manufacturer := RPI_MAKER_SONY }
  else if revisionValue = str "0014" then
    { r with bmodel := RPI_MODEL_CM, pcbrev := RPI_VERSION_1_1, ram := 1,
             manufacturer := RPI_MAKER_EMBEST }
  else if revisionValue = str "001a" then
    { r with bmodel := RPI_MODEL_CM, pcbrev := RPI_VERSION_1_1, ram := 1,
             manufacturer := RPI_MAKER_EGOMAN }
  else if revisionValue = str "0012" ∨ revisionValue = str "0018" then
    { r with bmodel := RPI_MODEL_A_PLUS, pcbrev := RPI_VERSION_1_1, ram := 0,
             manufacturer := RPI_MAKER_SONY }
  else if revisionValue = str "0015" then
    { r with bmodel := RPI_MODEL_A_PLUS, pcbrev := RPI_VERSION_1_1, ram := 1,
             manufacturer := RPI_MAKER_EMBEST }
  else if revisionValue = str "001b" then
    { r with bmodel := RPI_MODEL_A_PLUS, pcbrev := RPI_VERSION_1_1, ram := 0,
             manufacturer := RPI_MAKER_EGOMAN }
  else r

/-- Lines 224-345 of `piBoardId`: from the values of `ErrRevision` and `revisionValue`
the loop leaves to the results returned. -/
def decodeRevision (ErrRevision : Option GoError) (revisionValue : GoString) : BoardId :=
  -- If longer than 4, we'll assume it's been overvolted
  let bWarranty := if revisionValue.length > 4 then 1 else 0
  let revisionValue :=
    if revisionValue.length > 4 then revisionValue.drop (revisionValue.length - 4)
    else revisionValue
  -- Hex number with no leading 0x
  let (i, err) := ParseUint revisionValue 16 32
  -- uint(i): the value is below 2^32, so the conversion loses nothing
  let revision := i
  if err ≠ none then ⟨0, 0, 0, 0, 0, 0, err⟩
  else
    let scheme := (revision &&& (1 <<< 23)) >>> 23
    if scheme > 0 then
      { pcbrev := (revision &&& (0x0F <<< 0)) >>> 0
        bmodel := (revision &&& (0xFF <<< 4)) >>> 4
        processor := (revision &&& (0x0F <<< 12)) >>> 12
        manufacturer := (revision &&& (0x0F <<< 16)) >>> 16
        ram := (revision &&& (0x07 <<< 20)) >>> 20
        bWarranty := (revision &&& (0x03 <<< 24)) >>> 24
        err := ErrRevision }
    else
      legacySwitch revisionValue ⟨0, 0, 0, 0, 0, bWarranty, ErrRevision⟩

/-- The function `piBoardId`, given what `ioutil.ReadFile("/proc/cpuinfo")` yields:
`none` when the read fails, the text otherwise. -/
def piBoardId (cpuinfo : Option GoString) : Except GoPanic BoardId :=
  let ErrRevision := some GoError.errRevision
  match cpuinfo with
  | none => .ok ⟨0, 0, 0, 0, 0, 0, ErrRevision⟩
  | some text =>
    let lines := Split 0x0A text
    match revisionLoop lines ErrRevision [] with
    | .error p => .error p
    | .ok (ErrRevision, revisionValue) => .ok (decodeRevision ErrRevision revisionValue)

/-! ## `piGPIOLayout` (lines 163-195) -/

/-- The loop of lines 179-193 over the lines still to visit, from the current value of
`ErrHardWare` to the error returned. -/
def layoutLoop : List GoString → Option GoError → Except GoPanic (Option GoError)
  | [], ErrHardWare => .ok ErrHardWare
  | line :: rest, ErrHardWare =>
    match Split 0x3A line with
    | [] => .error (.indexOutOfRange 0 0)
    | [_] => .error (.indexOutOfRange 1 1)
    | f0 :: f1 :: _ =>
      let key := TrimSpace f0
      let value := TrimSpace f1
      if key = str "Hardware" then
        if value = str "BCM2708" ∨ value = str "BCM2709" ∨ value = str "BCM2835" then
          layoutLoop rest none
        else layoutLoop rest ErrHardWare
      else if key = str "Revision" then .ok ErrHardWare
      else layoutLoop rest ErrHardWare

/-- The function `piGPIOLayout`, given what `ioutil.ReadFile("/proc/cpuinfo")` yields. -/
def piGPIOLayout (cpuinfo : Option GoString) : Except GoPanic (Option GoError) :=
  match cpuinfo with
  | none => .ok (some .readFile)
  | some text => layoutLoop (Split 0x0A text) (some .errHardWare)

/-! ## `Init` (lines 48-116) -/

/-- The two devices `Init` opens. -/
inductive Device where
  /-- The file `/dev/mem`. -/
  | mem
  /-- The file `/dev/gpiomem`. -/
  | gpiomem
  deriving DecidableEq, Repr

/-- What the operating system answers to `Init`. -/
structure World where
  /-- Does `os.OpenFile("/dev/mem", O_RDWR|O_SYNC, 0660)` succeed. -/
  openMem : Bool
  /-- Does `os.OpenFile("/dev/gpiomem", O_RDWR|O_SYNC, 0660)` succeed. -/
  openGpiomem : Bool
  /-- What `ioutil.ReadFile("/proc/cpuinfo")` yields, `none` when it fails. -/
  cpuinfo : Option GoString
  /-- Does `syscall.Mmap` of the device at this offset and of this length succeed. -/
  mmap : Device → Int → Nat → Bool

/-- The calls `Init` makes to the operating system. -/
inductive Call where
  /-- The call `os.OpenFile(path, os.O_RDWR|os.O_SYNC, 0660)`. -/
  | openFile (d : Device)
  /-- The call `ioutil.ReadFile("/proc/cpuinfo")` of `piBoardId`. -/
  | readCpuinfo
  /-- The call `syscall.Mmap(fd, offset, length, PROT_READ|PROT_WRITE, MAP_SHARED)`. -/
  | mmap (d : Device) (offset : Int) (length : Nat)
  /-- The deferred `file.Close()`. -/
  | close (d : Device)
  deriving DecidableEq, Repr

/-- A `[]uint32` slice laid over mapped memory: the physical offset of the mapping it
views and its number of 32-bit words. -/
structure RegArray where
  offset : Int
  len : Nat
  deriving DecidableEq, Repr

/-- The package variables of lines 41-46; `none` is the nil slice. -/
structure Globals where
  gpioArry : Option RegArray
  pwmArry : Option RegArray
  clkArr : Option RegArray
  padsArry : Option RegArray
  deriving DecidableEq, Repr

/-- How a call ends: it returns its `err` result, or it panics. -/
inductive Completion where
  | returned (err : Option GoError)
  | panicked (p : GoPanic)
  deriving DecidableEq, Repr

/-- What a run of `Init` leaves: how it ended, the package variables, the calls made. -/
structure InitResult where
  completion : Completion
  globals : Globals
  calls : List Call
  deriving DecidableEq, Repr

/-- The value lines 66-74 of `Init` give the variable `piGpioBase` (an `int64`; the sums
below stay under `2^31`, so no wrap-around arises). -/
def piGpioBase (bmodel : Nat) : Int :=
  if bmodel = RPI_MODEL_A ∨ bmodel = RPI_MODEL_B ∨ bmodel = RPI_MODEL_A_PLUS ∨
      bmodel = RPI_MODEL_B_PLUS ∨ bmodel = RPI_MODEL_ALPHA ∨ bmodel = RPI_MODEL_CM ∨
      bmodel = RPI_MODEL_ZERO ∨ bmodel = RPI_MODEL_ZERO_W then
    0x20000000
  else
    0x3F000000

/-- Lines 66-115 of `Init`: what follows the call of `piBoardId`, from the model it
returned. The calls recorded are the ones of these lines. -/
def mapRegisters (w : World) (g : Globals) (bmodel : Nat) : InitResult :=
  let piGpioBase := piGpioBase bmodel
  -- Set the offsets into the memory interface.
  let GPIO_PADS := piGpioBase + 0x00100000
  let GPIO_CLOCK_BASE := piGpioBase + 0x00101000
  let GPIO_BASE := piGpioBase + 0x00200000
  let GPIO_PWM := piGpioBase + 0x0020C000
  -- GPIO:
  let calls := [Call.mmap .mem GPIO_BASE uint32BlockSize]
  if ¬ w.mmap .mem GPIO_BASE uint32BlockSize then
    ⟨.returned (some .mmapGpioFailed), g, calls⟩
  else
    let g := { g with gpioArry := some ⟨GPIO_BASE, uint32BlockSize / 4⟩ }
    -- PWM
    let calls := calls ++ [Call.mmap .mem GPIO_PWM uint32BlockSize]
    if ¬ w.mmap .mem GPIO_PWM uint32BlockSize then
      ⟨.returned (some .mmapPwmFailed), g, calls⟩
    else
      let g := { g with pwmArry := some ⟨GPIO_PWM, uint32BlockSize / 4⟩ }
      -- Clock control (needed for PWM)
      let calls := calls ++ [Call.mmap .mem GPIO_CLOCK_BASE uint32BlockSize]
      if ¬ w.mmap .mem GPIO_CLOCK_BASE uint32BlockSize then
        ⟨.returned (some .mmapClockFailed), g, calls⟩
      else
        let g := { g with clkArr := some ⟨GPIO_CLOCK_BASE, uint32BlockSize / 4⟩ }
        -- The drive pads
        let calls := calls ++ [Call.mmap .mem GPIO_PADS uint32BlockSize]
        if ¬ w.mmap .mem GPIO_PADS uint32BlockSize then
          ⟨.returned (some .mmapPadsFailed), g, calls⟩
        else
          let g := { g with padsArry := some ⟨GPIO_PADS, uint32BlockSize / 4⟩ }
          -- the naked return yields err, nil since the last Mmap
          ⟨.returned none, g, calls⟩

/-- The function `Init`, from what the operating system answers and from the package
variables before the call. -/
def Init (w : World) (g : Globals) : InitResult :=
  -- Try /dev/mem. If that fails, then try /dev/gpiomem. If that fails then game over.
  if ¬ w.openMem then
    -- line 57 opens /dev/gpiomem, line 59 returns whatever that open gave
    ⟨.returned (some .cannotOpen), g, [.openFile .mem, .openFile .gpiomem]⟩
  else
    -- fd can be closed after memory mapping: defer file.Close()
    match piBoardId w.cpuinfo with
    | .error p => ⟨.panicked p, g, [.openFile .mem, .readCpuinfo, .close .mem]⟩
    | .ok b =>
      -- the err of piBoardId is kept in err and overwritten by the first Mmap
      let r := mapRegisters w g b.bmodel
      { r with calls := [.openFile .mem, .readCpuinfo] ++ r.calls ++ [.close .mem] }

/-! ## Vocabulary of the specification -/

/-- The line reads "key: value": split at its colons it has at least two fields, the
first trims to `key` and the second to `value`. -/
def KeyValueLine (line key value : GoString) : Prop :=
  ∃ f0 f1 fs, Split 0x3A line = f0 :: f1 :: fs ∧ TrimSpace f0 = key ∧ TrimSpace f1 = value

/-- The first line of `text` with the key Revision holds the value `v`, and every line
before it reads "key: value". -/
def FirstRevision (text v : GoString) : Prop :=
  ∃ pre line post, Split 0x0A text = pre ++ line :: post ∧
    (∀ p ∈ pre, ∃ k x, KeyValueLine p k x ∧ k ≠ str "Revision") ∧
    KeyValueLine line (str "Revision") v

/-- The byte is one of `0-9`, `a-f`, `A-F`. -/
def isHexDigit (c : Nat) : Prop :=
  (0x30 ≤ c ∧ c ≤ 0x39) ∨ (0x61 ≤ c ∧ c ≤ 0x66) ∨ (0x41 ≤ c ∧ c ≤ 0x46)

instance (c : Nat) : Decidable (isHexDigit c) := by
  unfold isHexDigit; infer_instance

/-- The string is a non-empty run of hexadecimal digits. -/
def IsHexString (s : GoString) : Prop :=
  s ≠ [] ∧ ∀ c ∈ s, isHexDigit c

instance (s : GoString) : Decidable (IsHexString s) := by
  unfold IsHexString; infer_instance

/-- The last four bytes of a string, the whole string when it has at most four. -/
def lastFour (s : GoString) : GoString :=
  s.drop (s.length - 4)

/-- The number a string of hexadecimal digits denotes, most significant digit first. -/
def hexValue (s : GoString) : Nat :=
  s.foldl (fun n c => n * 16 + (digitValue c).getD 0) 0

/-- One row of the legacy revision table as the specification lists it. -/
structure LegacyRow where
  revision : GoString
  bmodel : Nat
  pcbrev : Nat
  ram : Nat
  manufacturer : Nat
  deriving DecidableEq, Repr

/-- The 22 legacy revision strings and their (model, PCB revision, RAM, manufacturer),
as the specification enumerates them. -/
def legacyTable : List LegacyRow :=
  [ ⟨str "0002", RPI_MODEL_B, RPI_VERSION_1, 0, RPI_MAKER_EGOMAN⟩,
    ⟨str "0003", RPI_MODEL_B, RPI_VERSION_1_1, 0, RPI_MAKER_EGOMAN⟩,
    ⟨str "0004", RPI_MODEL_B, RPI_VERSION_1_2, 0, RPI_MAKER_SONY⟩,
    ⟨str "0005", RPI_MODEL_B, RPI_VERSION_1_2, 0, RPI_MAKER_EGOMAN⟩,
    ⟨str "0006", RPI_MODEL_B, RPI_VERSION_1_2, 0, RPI_MAKER_EGOMAN⟩,
    ⟨str "000d", RPI_MODEL_B, RPI_VERSION_1_2, 0, RPI_MAKER_EGOMAN⟩,
    ⟨str "000f", RPI_MODEL_B, RPI_VERSION_1_2, 0, RPI_MAKER_EGOMAN⟩,
    ⟨str "0007", RPI_MODEL_A, RPI_VERSION_1_2, 0, RPI_MAKER_EGOMAN⟩,
    ⟨str "0009", RPI_MODEL_A, RPI_VERSION_1_2, 0, RPI_MAKER_EGOMAN⟩,
    ⟨str "0008", RPI_MODEL_A, RPI_VERSION_1_2, 0, RPI_MAKER_SONY⟩,
    ⟨str "0010", RPI_MODEL_B_PLUS, RPI_VERSION_1_2, 1, RPI_MAKER_SONY⟩,
    ⟨str "0016", RPI_MODEL_B_PLUS, RPI_VERSION_1_2, 1, RPI_MAKER_SONY⟩,
    ⟨str "0013", RPI_MODEL_B_PLUS, RPI_VERSION_1_2, 1, RPI_MAKER_EMBEST⟩,
    ⟨str "0019", RPI_MODEL_B_PLUS, RPI_VERSION_1_2, 1, RPI_MAKER_EGOMAN⟩,
    ⟨str "0011", RPI_MODEL_CM, RPI_VERSION_1_1, 1, RPI_MAKER_SONY⟩,
    ⟨str "0017", RPI_MODEL_CM, RPI_VERSION_1_1, 1, RPI_MAKER_SONY⟩,
    ⟨str "0014", RPI_MODEL_CM, RPI_VERSION_1_1, 1, RPI_MAKER_EMBEST⟩,
    ⟨str "001a", RPI_MODEL_CM, RPI_VERSION_1_1, 1, RPI_MAKER_EGOMAN⟩,
    ⟨str "0012", RPI_MODEL_A_PLUS, RPI_VERSION_1_1, 0, RPI_MAKER_SONY⟩,
    ⟨str "0018", RPI_MODEL_A_PLUS, RPI_VERSION_1_1, 0, RPI_MAKER_SONY⟩,
    ⟨str "0015", RPI_MODEL_A_PLUS, RPI_VERSION_1_1, 1, RPI_MAKER_EMBEST⟩,
    ⟨str "001b", RPI_MODEL_A_PLUS, RPI_VERSION_1_1, 0, RPI_MAKER_EGOMAN⟩ ]

/-- The package variables before any call of `Init`: four nil slices. -/
def noArrays : Globals := ⟨none, none, none, none⟩

/-- The string `piBoardId` is specified to read from the text: the trimmed second field
of the first line whose trimmed first field is Revision, the empty string when no line
has that key. -/
def firstRevisionValue (text : GoString) : GoString :=
  match (Split 0x0A text).find? fun l =>
      decide (TrimSpace ((Split 0x3A l).headD []) = str "Revision") with
  | some l => TrimSpace ((Split 0x3A l).getD 1 [])
  | none => []

/-- The line is a Hardware line naming one of the chips `piGPIOLayout` expects:
BCM2708, BCM2709 or BCM2835. -/
def isSupportedHardwareLine (l : GoString) : Bool :=
  match Split 0x3A l with
  | f0 :: f1 :: _ =>
    decide (TrimSpace f0 = str "Hardware" ∧
      (TrimSpace f1 = str "BCM2708" ∨ TrimSpace f1 = str "BCM2709" ∨
        TrimSpace f1 = str "BCM2835"))
  | _ => false

/-- One row of the table of known revisions in the comment of lines 356-383. -/
structure DocRow where
  revision : GoString
  bmodel : Nat
  /-- The memory column as a RAM tier: 0 for 256 MB, 1 for 512 MB. -/
  ram : Nat
  deriving DecidableEq, Repr

/-- The rows of the comment of lines 356-383 that name a model. -/
def docKnownRevisions : List DocRow :=
  [ ⟨str "0002", RPI_MODEL_B, 0⟩, ⟨str "0003", RPI_MODEL_B, 0⟩, ⟨str "0004", RPI_MODEL_B, 0⟩,
    ⟨str "0005", RPI_MODEL_B, 0⟩, ⟨str "0006", RPI_MODEL_B, 0⟩, ⟨str "0007", RPI_MODEL_A, 0⟩,
    ⟨str "0008", RPI_MODEL_A, 0⟩, ⟨str "0009", RPI_MODEL_A, 0⟩, ⟨str "000d", RPI_MODEL_B, 1⟩,
    ⟨str "000e", RPI_MODEL_B, 1⟩, ⟨str "000f", RPI_MODEL_B, 1⟩,
    ⟨str "0010", RPI_MODEL_B_PLUS, 1⟩, ⟨str "0011", RPI_MODEL_CM, 1⟩,
    ⟨str "0012", RPI_MODEL_A_PLUS, 0⟩, ⟨str "0013", RPI_MODEL_B_PLUS, 1⟩,
    ⟨str "0014", RPI_MODEL_CM, 1⟩, ⟨str "0015", RPI_MODEL_A_PLUS, 0⟩ ]

/-- Does `piBoardId`, on a text whose only line is the Revision line of this row, find the
revision in its switch and return the model and RAM tier the row documents. -/
def agreesWithDoc (row : DocRow) : Bool :=
  match piBoardId (some (str "Revision\t: " ++ row.revision)) with
  | .ok b =>
    decide (b.err = none ∧ row.revision ∈ legacyTable.map (fun r => r.revision) ∧
      b.bmodel = row.bmodel ∧ b.ram = row.ram)
  | .error _ => false

/-! ## Constants of `coreFunction_notLinux.go` (lines 35-55) -/

/-- The type `PullDest`, an `int`. -/
abbrev PullDest := Int

def PullOff : PullDest := 0
def PullDown : PullDest := 1
def PullUp : PullDest := 2

/-- The type `PWM`, an `int`. -/
abbrev PWM := Int

/-- The mark:space mode. -/
def PwmModeMS : PWM := 0

/-- The balanced mode. -/
def PwmModeBal : PWM := 0

/-! ## Lemmas on the digit loop -/

theorem digitValue_hex (c : Nat) (h : isHexDigit c) : ∃ d, digitValue c = some d ∧ d < 16 := by
  have hc : c < 103 := by unfold isHexDigit at h; omega
  revert h
  revert c
  decide

theorem lower_ge (c : Nat) : c ≤ lower c := by
  have hr : c % 64 < 2 ^ 6 := Nat.mod_lt _ (by norm_num)
  have hsmall : ∀ r, r < 64 → r ≤ r ||| 0x20 := by decide
  have hc : lower c = 2 ^ 6 * (c / 64) + (c % 64 ||| 0x20) := by
    have h32 : (0x20 : Nat) < 2 ^ 6 := by norm_num
    rw [Nat.mul_add_lt_is_or (Nat.or_lt_two_pow hr h32), ← Nat.or_assoc,
      ← Nat.mul_add_lt_is_or hr]
    have : 2 ^ 6 * (c / 64) + c % 64 = c := Nat.div_add_mod c 64
    rw [this, lower]
  have := hsmall (c % 64) hr
  have := Nat.div_add_mod c 64
  omega

theorem digitValue_not_hex (c d : Nat) (h : ¬ isHexDigit c) (hd : digitValue c = some d) :
    16 ≤ d := by
  have hc : c < 123 := by
    unfold digitValue at hd
    have := lower_ge c
    split_ifs at hd <;> omega
  have key : ∀ c, c < 123 → ¬ isHexDigit c → ∀ d ∈ digitValue c, 16 ≤ d := by decide
  exact key c hc h d hd

theorem parseDigits_hex (s0 : GoString) (cutoff : Nat) (hcut : 2 ^ 32 ≤ cutoff) :
    ∀ (s : GoString) (n : Nat), (∀ c ∈ s, isHexDigit c) → (n + 1) * 16 ^ s.length ≤ 2 ^ 32 →
      ∃ m, parseDigits s0 16 cutoff (2 ^ 32 - 1) s n = (m, none) ∧
        m < (n + 1) * 16 ^ s.length := by
  intro s
  induction s with
  | nil => intro n _ _; exact ⟨n, rfl, by simp⟩
  | cons c cs ih =>
    intro n hs hn
    obtain ⟨d, hd, hd16⟩ := digitValue_hex c (hs c (List.mem_cons_self _ _))
    have hpos : 1 ≤ 16 ^ cs.length := Nat.one_le_two_pow.trans (Nat.pow_le_pow_left (by norm_num) _)
    have hn2 : (n + 1) * 16 * 16 ^ cs.length ≤ 2 ^ 32 := by
      simpa [List.length_cons, pow_succ, Nat.mul_assoc, Nat.mul_comm] using hn
    have hn3 : (n + 1) * 16 ≤ 2 ^ 32 :=
      (Nat.le_mul_of_pos_right _ hpos).trans hn2
    have hstep : (n * 16 + d + 1) * 16 ^ cs.length ≤ (n + 1) * 16 * 16 ^ cs.length :=
      Nat.mul_le_mul_right _ (by omega)
    have hmod : (n * 16 + d) % 2 ^ 64 = n * 16 + d := Nat.mod_eq_of_lt (by omega)
    obtain ⟨m, hm, hlt⟩ := ih (n * 16 + d) (fun x hx => hs x (List.mem_cons_of_mem _ hx))
      (hstep.trans hn2)
    refine ⟨m, ?_, ?_⟩
    · rw [parseDigits, hd]
      simp only [hmod]
      rw [if_neg (by omega), if_neg (by omega), if_neg (by omega)]
      exact hm
    · calc m < (n * 16 + d + 1) * 16 ^ cs.length := hlt
        _ ≤ (n + 1) * 16 * 16 ^ cs.length := hstep
        _ = (n + 1) * 16 ^ (c :: cs).length := by
          simp [List.length_cons, pow_succ, Nat.mul_assoc, Nat.mul_comm]

theorem parseDigits_not_hex (s0 : GoString) (cutoff maxVal : Nat) :
    ∀ (s : GoString) (n : Nat), (∃ c ∈ s, ¬ isHexDigit c) →
      (parseDigits s0 16 cutoff maxVal s n).2 ≠ none := by
  intro s
  induction s with
  | nil => intro n ⟨c, hc, _⟩; simp at hc
  | cons c cs ih =>
    intro n hex
    rw [parseDigits]
    cases hd : digitValue c with
    | none => simp
    | some d =>
      simp only
      split_ifs with h1 h2 h3
      · simp
      · simp
      · simp
      · apply ih
        obtain ⟨x, hx, hxn⟩ := hex
        rcases List.mem_cons.1 hx with rfl | hx
        · exact absurd (digitValue_not_hex x d hxn hd) (by omega)
        · exact ⟨x, hx, hxn⟩
theorem ParseUint_hex (s : GoString) (hs : IsHexString s) (hlen : s.length ≤ 4) :
    ∃ m, ParseUint s 16 32 = (m, none) ∧ m < 0x10000 := by
  have hpow : (16 : Nat) ^ s.length ≤ 16 ^ 4 := Nat.pow_le_pow_right (by norm_num) hlen
  obtain ⟨m, hm, hlt⟩ := parseDigits_hex s ((2 ^ 64 - 1) / 16 + 1) (by norm_num) s 0 hs.2
    (by norm_num at hpow ⊢; omega)
  refine ⟨m, ?_, by norm_num at hpow hlt ⊢; omega⟩
  rw [ParseUint, if_neg hs.1]
  exact hm

theorem ParseUint_not_hex (s : GoString) (hs : ∃ c ∈ s, ¬ isHexDigit c) :
    (ParseUint s 16 32).2 ≠ none := by
  rw [ParseUint]
  split_ifs
  · simp
  · exact parseDigits_not_hex s _ _ s 0 hs

/-! ## Lemmas on `piBoardId` -/

theorem lastFour_length (s : GoString) : (lastFour s).length ≤ 4 := by
  simp only [lastFour, List.length_drop]
  omega

theorem scheme_zero (m : Nat) (h : m < 0x10000) : (m &&& (1 <<< 23)) >>> 23 = 0 := by
  have h1 : m &&& (1 <<< 23) ≤ m := Nat.and_le_left
  rw [Nat.shiftRight_eq_div_pow]
  exact Nat.div_eq_of_lt (by norm_num; omega)

theorem decodeRevision_hex (e : Option GoError) (v : GoString) (h : IsHexString (lastFour v)) :
    decodeRevision e v =
      legacySwitch (lastFour v) ⟨0, 0, 0, 0, 0, if v.length > 4 then 1 else 0, e⟩ := by
  obtain ⟨m, hm, hlt⟩ := ParseUint_hex _ h (lastFour_length v)
  have hlast : (if v.length > 4 then v.drop (v.length - 4) else v) = lastFour v := by
    split_ifs with hl
    · rfl
    · have : v.length - 4 = 0 := by omega
      simp [lastFour, this]
  simp only [decodeRevision, hlast, hm, scheme_zero m hlt]
  simp

theorem decodeRevision_not_hex (e : Option GoError) (v : GoString)
    (h : ∃ c ∈ lastFour v, ¬ isHexDigit c) :
    ∃ err, decodeRevision e v = ⟨0, 0, 0, 0, 0, 0, some err⟩ := by
  have hne := ParseUint_not_hex _ h
  have hlast : (if v.length > 4 then v.drop (v.length - 4) else v) = lastFour v := by
    split_ifs with hl
    · rfl
    · have : v.length - 4 = 0 := by omega
      simp [lastFour, this]
  cases hp : ParseUint (lastFour v) 16 32 with
  | mk i err =>
    rw [hp] at hne
    cases err with
    | none => exact absurd rfl hne
    | some x =>
      refine ⟨x, ?_⟩
      simp only [decodeRevision, hlast, hp]
      simp

theorem revisionLoop_append (pre : List GoString) (line : GoString) (post : List GoString)
    (v : GoString) (e : Option GoError) (r : GoString)
    (hpre : ∀ p ∈ pre, ∃ k x, KeyValueLine p k x ∧ k ≠ str "Revision")
    (hline : KeyValueLine line (str "Revision") v) :
    revisionLoop (pre ++ line :: post) e r = .ok (none, v) := by
  induction pre with
  | nil =>
    obtain ⟨f0, f1, fs, hsplit, hk, hv⟩ := hline
    simp [revisionLoop, hsplit, hk, hv]
  | cons p ps ih =>
    obtain ⟨k, x, ⟨f0, f1, fs, hsplit, hk, hx⟩, hne⟩ := hpre p (List.mem_cons_self _ _)
    have := ih (fun q hq => hpre q (List.mem_cons_of_mem _ hq))
    simp [revisionLoop, hsplit, hk, hne, this]

theorem piBoardId_firstRevision (text v : GoString) (h : FirstRevision text v) :
    piBoardId (some text) = .ok (decodeRevision none v) := by
  obtain ⟨pre, line, post, hsplit, hpre, hline⟩ := h
  simp [piBoardId, hsplit, revisionLoop_append pre line post v _ _ hpre hline]
theorem firstRevision_of_loop (v : GoString) :
    ∀ (ls : List GoString) (e : Option GoError) (r : GoString), e ≠ none →
      revisionLoop ls e r = .ok (none, v) →
      ∃ pre line post, ls = pre ++ line :: post ∧
        (∀ p ∈ pre, ∃ k x, KeyValueLine p k x ∧ k ≠ str "Revision") ∧
        KeyValueLine line (str "Revision") v := by
  intro ls
  induction ls with
  | nil =>
    intro e r he h
    simp only [revisionLoop, Except.ok.injEq, Prod.mk.injEq] at h
    exact absurd h.1 he
  | cons l rest ih =>
    intro e r he h
    rw [revisionLoop] at h
    split at h
    · simp at h
    · simp at h
    · rename_i f0 f1 fs hsplit
      simp only at h
      split_ifs at h with hk
      · simp only [Except.ok.injEq, Prod.mk.injEq, true_and] at h
        exact ⟨[], l, rest, rfl, by simp, f0, f1, fs, hsplit, hk, h⟩
      · obtain ⟨pre, line, post, hls, hpre, hline⟩ := ih e r he h
        refine ⟨l :: pre, line, post, by simp [hls], ?_, hline⟩
        intro p hp
        rcases List.mem_cons.1 hp with rfl | hp
        · exact ⟨_, _, ⟨f0, f1, fs, hsplit, rfl, rfl⟩, hk⟩
        · exact hpre p hp

theorem firstRevision_of_eval (text v : GoString)
    (h : revisionLoop (Split 0x0A text) (some .errRevision) [] = .ok (none, v)) :
    FirstRevision text v :=
  firstRevision_of_loop v _ _ _ (by simp) h

theorem legacyTable_size :
    legacyTable.length = 22 ∧ (legacyTable.map fun row => row.revision).Nodup := by
  decide

theorem legacySwitch_miss (t : GoString) (r : BoardId)
    (h : t ∉ legacyTable.map fun row => row.revision) : legacySwitch t r = r := by
  have h2 : ∀ row ∈ legacyTable, t ≠ row.revision := by
    intro row hrow heq
    exact h (List.mem_map.2 ⟨row, hrow, heq.symm⟩)
  simp only [legacyTable, List.mem_cons, List.mem_singleton, forall_eq_or_imp, forall_eq,
    List.not_mem_nil, IsEmpty.forall_iff, implies_true, and_true] at h2
  unfold legacySwitch
  simp only [h2, if_false, or_self]

theorem legacySwitch_fields (t : GoString) (w : Nat) (e : Option GoError) :
    legacySwitch t ⟨0, 0, 0, 0, 0, w, e⟩ =
      { legacySwitch t ⟨0, 0, 0, 0, 0, 0, none⟩ with bWarranty := w, err := e } := by
  by_cases ht : t ∈ legacyTable.map fun row => row.revision
  · have key : ∀ s ∈ legacyTable.map (fun row => row.revision), ∀ (w : Nat) (e : Option GoError),
        legacySwitch s ⟨0, 0, 0, 0, 0, w, e⟩ =
          { legacySwitch s ⟨0, 0, 0, 0, 0, 0, none⟩ with bWarranty := w, err := e } := by
      simp only [legacyTable, List.map_cons, List.map_nil, List.forall_mem_cons,
        List.not_mem_nil, IsEmpty.forall_iff, implies_true, and_true]
      refine ⟨?_, ?_, ?_, ?_, ?_, ?_, ?_, ?_, ?_, ?_, ?_, ?_, ?_, ?_, ?_, ?_, ?_, ?_, ?_, ?_,
        ?_, ?_⟩ <;> intro w e <;> rfl
    exact key t ht w e
  · rw [legacySwitch_miss t _ ht, legacySwitch_miss t _ ht]

theorem legacySwitch_processor (t : GoString) :
    (legacySwitch t ⟨0, 0, 0, 0, 0, 0, none⟩).processor = 0 := by
  by_cases ht : t ∈ legacyTable.map fun row => row.revision
  · have key : ∀ s ∈ legacyTable.map (fun row => row.revision),
        (legacySwitch s ⟨0, 0, 0, 0, 0, 0, none⟩).processor = 0 := by decide
    exact key t ht
  · rw [legacySwitch_miss t _ ht]

/-! ## Further lemmas on the scans and on the decoding -/

theorem Split_ne_nil (sep : Nat) (s : GoString) : Split sep s ≠ [] := by
  induction s with
  | nil => simp [Split]
  | cons c rest ih =>
    rw [Split]
    split_ifs
    · simp
    · split <;> simp

theorem Split_two_fields (sep : Nat) (s : GoString) (h : sep ∈ s) :
    ∃ f0 f1 fs, Split sep s = f0 :: f1 :: fs := by
  induction s with
  | nil => simp at h
  | cons c rest ih =>
    rw [Split]
    split_ifs with hc
    · cases hr : Split sep rest with
      | nil => exact absurd hr (Split_ne_nil sep rest)
      | cons f fs => exact ⟨[], f, fs, rfl⟩
    · have hrest : sep ∈ rest := by
        rcases List.mem_cons.1 h with h | h
        · exact absurd h.symm hc
        · exact h
      obtain ⟨f0, f1, fs, hs⟩ := ih hrest
      rw [hs]
      exact ⟨c :: f0, f1, fs, rfl⟩

theorem revisionLoop_result (ls : List GoString) (e e2 : Option GoError) (r r2 : GoString)
    (h : revisionLoop ls e r = .ok (e2, r2)) : e2 = none ∨ (e2 = e ∧ r2 = r) := by
  induction ls with
  | nil =>
    simp only [revisionLoop, Except.ok.injEq, Prod.mk.injEq] at h
    exact Or.inr ⟨h.1.symm, h.2.symm⟩
  | cons l rest ih =>
    rw [revisionLoop] at h
    split at h
    · simp at h
    · simp at h
    · simp only at h
      split_ifs at h
      · simp only [Except.ok.injEq, Prod.mk.injEq] at h
        exact Or.inl h.1.symm
      · exact ih h

theorem revisionLoop_colons (ls : List GoString) (e : Option GoError) (r : GoString)
    (h : ∀ l ∈ ls, 0x3A ∈ l) :
    revisionLoop ls e r =
      .ok (match ls.find? fun l =>
          decide (TrimSpace ((Split 0x3A l).headD []) = str "Revision") with
        | some l => (none, TrimSpace ((Split 0x3A l).getD 1 []))
        | none => (e, r)) := by
  induction ls with
  | nil => rfl
  | cons l rest ih =>
    obtain ⟨f0, f1, fs, hs⟩ := Split_two_fields 0x3A l (h l (List.mem_cons_self _ _))
    have ih2 := ih (fun x hx => h x (List.mem_cons_of_mem _ hx))
    rw [revisionLoop, hs]
    simp only [List.find?_cons, hs, List.headD_cons, List.getD_cons_succ, List.getD_cons_zero]
    by_cases hk : TrimSpace f0 = str "Revision"
    · simp [hk, hs]
    · simp [hk, ih2]

theorem parseDigits_bad (s0 : GoString) (cutoff : Nat) (hcut : 2 ^ 32 ≤ cutoff) :
    ∀ (s : GoString) (n : Nat), (∃ c ∈ s, ¬ isHexDigit c) → (n + 1) * 16 ^ s.length ≤ 2 ^ 32 →
      parseDigits s0 16 cutoff (2 ^ 32 - 1) s n =
        (0, some (.numSyntaxErr (str "ParseUint") s0)) := by
  intro s
  induction s with
  | nil => intro n ⟨c, hc, _⟩; simp at hc
  | cons c cs ih =>
    intro n hex hn
    have hpos : 1 ≤ 16 ^ cs.length := Nat.one_le_two_pow.trans (Nat.pow_le_pow_left (by norm_num) _)
    have hn2 : (n + 1) * 16 * 16 ^ cs.length ≤ 2 ^ 32 := by
      simpa [List.length_cons, pow_succ, Nat.mul_assoc, Nat.mul_comm] using hn
    have hn3 : (n + 1) * 16 ≤ 2 ^ 32 := (Nat.le_mul_of_pos_right _ hpos).trans hn2
    rw [parseDigits]
    cases hd : digitValue c with
    | none => rfl
    | some d =>
      simp only
      by_cases hd16 : d ≥ 16
      · rw [if_pos hd16]
      · have hstep : (n * 16 + d + 1) * 16 ^ cs.length ≤ (n + 1) * 16 * 16 ^ cs.length :=
          Nat.mul_le_mul_right _ (by omega)
        have hmod : (n * 16 + d) % 2 ^ 64 = n * 16 + d := Nat.mod_eq_of_lt (by omega)
        rw [if_neg hd16, if_neg (by omega), hmod, if_neg (by omega)]
        apply ih _ _ (hstep.trans hn2)
        obtain ⟨x, hx, hxn⟩ := hex
        rcases List.mem_cons.1 hx with rfl | hx
        · exact absurd (digitValue_not_hex x d hxn hd) hd16
        · exact ⟨x, hx, hxn⟩

theorem ParseUint_bad (s : GoString) (hlen : s.length ≤ 4) (h : ¬ IsHexString s) :
    ParseUint s 16 32 = (0, some (.numSyntaxErr (str "ParseUint") s)) := by
  rw [ParseUint]
  split_ifs with he
  · rfl
  · have hex : ∃ c ∈ s, ¬ isHexDigit c := by
      by_contra hall
      push_neg at hall
      exact h ⟨he, hall⟩
    have hpow : (16 : Nat) ^ s.length ≤ 16 ^ 4 := Nat.pow_le_pow_right (by norm_num) hlen
    exact parseDigits_bad s _ (by norm_num) s 0 hex (by norm_num at hpow ⊢; omega)

theorem decodeRevision_bad (e : Option GoError) (v : GoString)
    (h : ¬ IsHexString (lastFour v)) :
    decodeRevision e v =
      ⟨0, 0, 0, 0, 0, 0, some (.numSyntaxErr (str "ParseUint") (lastFour v))⟩ := by
  have hp := ParseUint_bad _ (lastFour_length v) h
  have hlast : (if v.length > 4 then v.drop (v.length - 4) else v) = lastFour v := by
    split_ifs with hl
    · rfl
    · have : v.length - 4 = 0 := by omega
      simp [lastFour, this]
  simp only [decodeRevision, hlast, hp]
  simp

theorem decodeRevision_err_iff (v : GoString) :
    (decodeRevision none v).err ≠ none ↔ ¬ IsHexString (lastFour v) := by
  constructor
  · intro herr hhex
    rw [decodeRevision_hex none v hhex, legacySwitch_fields] at herr
    exact herr rfl
  · intro h
    rw [decodeRevision_bad none v h]
    simp

theorem piBoardId_success (text : GoString) (b : BoardId)
    (hret : piBoardId (some text) = .ok b) (hok : b.err = none) :
    ∃ v, FirstRevision text v ∧ IsHexString (lastFour v) ∧
      b = legacySwitch (lastFour v) ⟨0, 0, 0, 0, 0, if v.length > 4 then 1 else 0, none⟩ := by
  simp only [piBoardId] at hret
  cases hloop : revisionLoop (Split 0x0A text) (some .errRevision) [] with
  | error p => rw [hloop] at hret; simp at hret
  | ok res =>
    obtain ⟨e2, v⟩ := res
    rw [hloop] at hret
    simp only [Except.ok.injEq] at hret
    rcases revisionLoop_result _ _ _ _ _ hloop with he | ⟨he, hv⟩
    · subst he
      have hfirst := firstRevision_of_eval text v hloop
      have hhex : IsHexString (lastFour v) := by
        by_contra hbad
        have := (decodeRevision_err_iff v).2 hbad
        rw [hret] at this
        exact this hok
      exact ⟨v, hfirst, hhex, by rw [← hret, decodeRevision_hex none v hhex]⟩
    · subst he hv
      have : (decodeRevision (some .errRevision) []).err ≠ none := by decide
      rw [hret] at this
      exact absurd hok this

theorem legacySwitch_range (t : GoString) :
    (legacySwitch t ⟨0, 0, 0, 0, 0, 0, none⟩).bmodel ∈ [0, 1, 2, 3, 6] ∧
    (legacySwitch t ⟨0, 0, 0, 0, 0, 0, none⟩).pcbrev ≤ 2 ∧
    (legacySwitch t ⟨0, 0, 0, 0, 0, 0, none⟩).manufacturer ≤ 2 ∧
    (legacySwitch t ⟨0, 0, 0, 0, 0, 0, none⟩).ram ≤ 1 := by
  by_cases ht : t ∈ legacyTable.map fun row => row.revision
  · have key : ∀ s ∈ legacyTable.map (fun row => row.revision),
        (legacySwitch s ⟨0, 0, 0, 0, 0, 0, none⟩).bmodel ∈ [0, 1, 2, 3, 6] ∧
        (legacySwitch s ⟨0, 0, 0, 0, 0, 0, none⟩).pcbrev ≤ 2 ∧
        (legacySwitch s ⟨0, 0, 0, 0, 0, 0, none⟩).manufacturer ≤ 2 ∧
        (legacySwitch s ⟨0, 0, 0, 0, 0, 0, none⟩).ram ≤ 1 := by decide
    exact key t ht
  · rw [legacySwitch_miss t _ ht]
    simp

theorem legacySwitch_hit_nonzero (t : GoString)
    (ht : t ∈ legacyTable.map fun row => row.revision) :
    ¬ ((legacySwitch t ⟨0, 0, 0, 0, 0, 0, none⟩).bmodel = 0 ∧
      (legacySwitch t ⟨0, 0, 0, 0, 0, 0, none⟩).pcbrev = 0 ∧
      (legacySwitch t ⟨0, 0, 0, 0, 0, 0, none⟩).ram = 0 ∧
      (legacySwitch t ⟨0, 0, 0, 0, 0, 0, none⟩).manufacturer = 0) := by
  have key : ∀ s ∈ legacyTable.map (fun row => row.revision),
      ¬ ((legacySwitch s ⟨0, 0, 0, 0, 0, 0, none⟩).bmodel = 0 ∧
        (legacySwitch s ⟨0, 0, 0, 0, 0, 0, none⟩).pcbrev = 0 ∧
        (legacySwitch s ⟨0, 0, 0, 0, 0, 0, none⟩).ram = 0 ∧
        (legacySwitch s ⟨0, 0, 0, 0, 0, 0, none⟩).manufacturer = 0) := by decide
  exact key t ht

theorem layoutLoop_append (pre : List GoString) (line : GoString) (post : List GoString)
    (e : Option GoError)
    (hpre : ∀ p ∈ pre, ∃ k x, KeyValueLine p k x ∧ k ≠ str "Revision")
    (hline : ∃ v, KeyValueLine line (str "Revision") v) :
    layoutLoop (pre ++ line :: post) e =
      .ok (if pre.any isSupportedHardwareLine then none else e) := by
  induction pre generalizing e with
  | nil =>
    obtain ⟨v, f0, f1, fs, hsplit, hk, hv⟩ := hline
    have hne : str "Revision" ≠ str "Hardware" := by decide
    simp [layoutLoop, hsplit, hk, hne]
  | cons p ps ih =>
    obtain ⟨k, x, ⟨f0, f1, fs, hsplit, hk, hx⟩, hne⟩ := hpre p (List.mem_cons_self _ _)
    have ih2 := fun e => ih e (fun q hq => hpre q (List.mem_cons_of_mem _ hq))
    simp only [List.cons_append, layoutLoop, hsplit, hk, hx, List.any_cons,
      isSupportedHardwareLine]
    by_cases hhw : k = str "Hardware"
    · by_cases hval : x = str "BCM2708" ∨ x = str "BCM2709" ∨ x = str "BCM2835"
      · simp [hhw, hval, ih2]
      · simp [hhw, hval, ih2]
    · simp [hhw, hne, ih2]

theorem lastFour_hex (v : GoString) (h : IsHexString v) : IsHexString (lastFour v) := by
  refine ⟨?_, fun c hc => h.2 c (List.mem_of_mem_drop hc)⟩
  have hpos : 0 < v.length := List.length_pos.2 h.1
  have hlen : 0 < (lastFour v).length := by
    simp only [lastFour, List.length_drop]
    omega
  exact List.length_pos.1 hlen

theorem parseDigits_value (s0 : GoString) (maxVal : Nat) :
    ∀ (s : GoString) (n m : Nat),
      parseDigits s0 16 ((2 ^ 64 - 1) / 16 + 1) maxVal s n = (m, none) →
      m = s.foldl (fun n c => n * 16 + (digitValue c).getD 0) n := by
  intro s
  induction s with
  | nil =>
    intro n m h
    simp only [parseDigits, Prod.mk.injEq, and_true] at h
    simp [h]
  | cons c cs ih =>
    intro n m h
    rw [parseDigits] at h
    cases hd : digitValue c with
    | none => rw [hd] at h; simp at h
    | some d =>
      rw [hd] at h
      simp only at h
      split_ifs at h with h1 h2 h3
      · simp at h
      · simp at h
      · simp at h
      · have hmod : (n * 16 + d) % 2 ^ 64 = n * 16 + d := by
          norm_num at h1 h2 h3 ⊢
          omega
        rw [hmod] at h
        simp only [List.foldl_cons, hd, Option.getD_some]
        exact ih _ _ h

theorem ParseUint_value (v : GoString) (r : Nat) (h : ParseUint v 16 32 = (r, none)) :
    IsHexString v ∧ r = hexValue v := by
  have hhex : IsHexString v := by
    by_contra hbad
    have hne : v ≠ [] := by
      intro he
      rw [he] at h
      simp [ParseUint] at h
    have hex : ∃ c ∈ v, ¬ isHexDigit c := by
      by_contra hall
      push_neg at hall
      exact hbad ⟨hne, hall⟩
    have := ParseUint_not_hex v hex
    rw [h] at this
    exact this rfl
  refine ⟨hhex, ?_⟩
  rw [ParseUint, if_neg hhex.1] at h
  exact parseDigits_value v _ v 0 r h

theorem piBoardId_unparseable (text v : GoString) (h : FirstRevision text v)
    (hbad : ∃ c ∈ lastFour v, ¬ isHexDigit c) :
    ∃ err, piBoardId (some text) = .ok ⟨0, 0, 0, 0, 0, 0, some err⟩ := by
  obtain ⟨err, herr⟩ := decodeRevision_not_hex none v hbad
  exact ⟨err, by rw [piBoardId_firstRevision text v h, herr]⟩

/-! ## The claims -/

/-- C1 (defect in the code). The cpuinfo text whose Revision line holds `a02082` has a
hexadecimal revision with bit 23 set, yet `piBoardId` cuts the value to `2082` before it
parses it, never enters the bit-field branch and returns pcbrev, bmodel, processor,
manufacturer and ram all 0 with the warranty flag 1, where the bit ranges give
pcbrev 2, bmodel 8, processor 2, manufacturer 0 and ram 2. -/
theorem C1_bitfield_revision_cut_before_parse :
    FirstRevision (str "Hardware\t: BCM2835\nRevision\t: a02082") (str "a02082") ∧
    ParseUint (str "a02082") 16 32 = (0x00A02082, none) ∧
    (0x00A02082 &&& (1 <<< 23)) >>> 23 = 1 ∧
    (0x00A02082 &&& (0xFF <<< 4)) >>> 4 = RPI_MODEL_3B ∧
    piBoardId (some (str "Hardware\t: BCM2835\nRevision\t: a02082")) =
      .ok ⟨0, 0, 0, 0, 0, 1, none⟩ :=
  ⟨firstRevision_of_eval _ _ (by decide), by decide, by decide, by decide, by decide⟩

/-- C2. For every cpuinfo text whose first Revision line holds the string of a row of the
legacy table, `piBoardId` returns a nil error, processor 0, warranty flag 0 and the
model, PCB revision, RAM and manufacturer of that row. -/
theorem C2_legacy_table_lookup (text : GoString) (row : LegacyRow)
    (hrow : row ∈ legacyTable) (h : FirstRevision text row.revision) :
    piBoardId (some text) =
      .ok ⟨row.pcbrev, row.bmodel, 0, row.manufacturer, row.ram, 0, none⟩ := by
  have key : ∀ r ∈ legacyTable,
      decodeRevision none r.revision = ⟨r.pcbrev, r.bmodel, 0, r.manufacturer, r.ram, 0, none⟩ := by
    decide
  rw [piBoardId_firstRevision text _ h, key row hrow]

/-- Witness of C2: the revision `0002` is Model B, PCB version 1, RAM 0, Egoman. -/
theorem C2_legacy_table_lookup_witness :
    (⟨str "0002", RPI_MODEL_B, RPI_VERSION_1, 0, RPI_MAKER_EGOMAN⟩ : LegacyRow) ∈ legacyTable ∧
    FirstRevision (str "Hardware\t: BCM2835\nRevision\t: 0002\nSerial\t\t: 00000000") (str "0002") ∧
    piBoardId (some (str "Hardware\t: BCM2835\nRevision\t: 0002\nSerial\t\t: 00000000")) =
      .ok ⟨RPI_VERSION_1, RPI_MODEL_B, 0, RPI_MAKER_EGOMAN, 0, 0, none⟩ :=
  ⟨by decide, firstRevision_of_eval _ _ (by decide),
    C2_legacy_table_lookup _ ⟨str "0002", RPI_MODEL_B, RPI_VERSION_1, 0, RPI_MAKER_EGOMAN⟩
      (by decide) (firstRevision_of_eval _ _ (by decide))⟩
/-- C3. When the first Revision value `v` has more than four bytes and its last four are
hexadecimal digits, `piBoardId` returns the warranty flag 1 and otherwise exactly what it
returns for a text whose Revision value is those last four bytes alone: the same bmodel,
pcbrev, processor, manufacturer, ram and error (the latter run has the flag 0). -/
theorem C3_overvolt_uses_last_four (text text4 v : GoString) (h : FirstRevision text v)
    (hlen : v.length > 4) (hhex : IsHexString (lastFour v))
    (h4 : FirstRevision text4 (lastFour v)) :
    ∃ b b4, piBoardId (some text) = .ok b ∧ piBoardId (some text4) = .ok b4 ∧
      b.bWarranty = 1 ∧ b4.bWarranty = 0 ∧ b.bmodel = b4.bmodel ∧ b.pcbrev = b4.pcbrev ∧
      b.processor = b4.processor ∧ b.manufacturer = b4.manufacturer ∧ b.ram = b4.ram ∧
      b.err = b4.err := by
  have hl4 : (lastFour v).length = 4 := by
    simp only [lastFour, List.length_drop]
    omega
  have hidem : lastFour (lastFour v) = lastFour v := by
    rw [lastFour, hl4]
    rfl
  have hhex4 : IsHexString (lastFour (lastFour v)) := by rw [hidem]; exact hhex
  refine ⟨_, _, piBoardId_firstRevision text v h, piBoardId_firstRevision text4 _ h4, ?_⟩
  rw [decodeRevision_hex none v hhex, decodeRevision_hex none (lastFour v) hhex4, hidem,
    legacySwitch_fields (lastFour v) (if v.length > 4 then 1 else 0),
    legacySwitch_fields (lastFour v) (if (lastFour v).length > 4 then 1 else 0)]
  simp [hlen, hl4]

/-- Witness of C3: `1000003` gives the warranty flag 1 and the descriptor of `0003`. -/
theorem C3_overvolt_uses_last_four_witness :
    FirstRevision (str "Revision\t: 1000003") (str "1000003") ∧
    (str "1000003").length > 4 ∧ IsHexString (lastFour (str "1000003")) ∧
    FirstRevision (str "Revision\t: 0003") (lastFour (str "1000003")) ∧
    ∃ b b4, piBoardId (some (str "Revision\t: 1000003")) = .ok b ∧
      piBoardId (some (str "Revision\t: 0003")) = .ok b4 ∧
      b.bWarranty = 1 ∧ b4.bWarranty = 0 ∧ b.bmodel = b4.bmodel ∧ b.pcbrev = b4.pcbrev ∧
      b.processor = b4.processor ∧ b.manufacturer = b4.manufacturer ∧ b.ram = b4.ram ∧
      b.err = b4.err :=
  ⟨firstRevision_of_eval _ _ (by decide), by decide, by decide,
    firstRevision_of_eval _ _ (by decide),
    C3_overvolt_uses_last_four (str "Revision\t: 1000003") (str "Revision\t: 0003")
      (str "1000003") (firstRevision_of_eval _ _ (by decide)) (by decide) (by decide)
      (firstRevision_of_eval _ _ (by decide))⟩

/-- C4 (defect in the code, the one of C14). On a text with an empty line between two
stanzas the first Revision value is `zzzz`, which is not hexadecimal, yet `piBoardId`
does not return the parse error: it panics at `fields[1]` on the empty line, before it
reaches the Revision line. Without such a line it returns the error and six zeros. -/
theorem C4_unparseable_revision_behind_empty_line :
    firstRevisionValue (str "processor\t: 0\n\nHardware\t: BCM2835\nRevision\t: zzzz\n") =
      str "zzzz" ∧
    lastFour (str "zzzz") = str "zzzz" ∧
    (∃ c ∈ lastFour (str "zzzz"), ¬ isHexDigit c) ∧
    piBoardId (some (str "processor\t: 0\n\nHardware\t: BCM2835\nRevision\t: zzzz\n")) =
      .error (.indexOutOfRange 1 1) ∧
    piBoardId (some (str "processor\t: 0\nHardware\t: BCM2835\nRevision\t: zzzz\n")) =
      .ok ⟨0, 0, 0, 0, 0, 0, some (.numSyntaxErr (str "ParseUint") (str "zzzz"))⟩ :=
  ⟨by decide, by decide, by decide, by decide, by decide⟩

/-- C5 as stated fails: the Revision value `1000002` parses as hexadecimal with bit 23
clear and is not a string of the legacy table, yet `piBoardId` looks up its last four
bytes `0002` and returns Model B made by Egoman, not an all-zero descriptor. -/
theorem C5_overvolted_table_entry_is_found :
    FirstRevision (str "Revision\t: 1000002") (str "1000002") ∧
    ParseUint (str "1000002") 16 32 = (0x1000002, none) ∧
    (0x1000002 &&& (1 <<< 23)) >>> 23 = 0 ∧
    str "1000002" ∉ legacyTable.map (fun row => row.revision) ∧
    piBoardId (some (str "Revision\t: 1000002")) =
      .ok ⟨RPI_VERSION_1, RPI_MODEL_B, 0, RPI_MAKER_EGOMAN, 0, 1, none⟩ ∧
    RPI_MODEL_B ≠ 0 ∧
    IsHexString (str "1000002") ∧ hexValue (str "1000002") = 0x1000002 :=
  ⟨firstRevision_of_eval _ _ (by decide), by decide, by decide, by decide, by decide,
    by decide, by decide, by decide⟩

/-- C5, amended. When the first Revision value parses as hexadecimal (it is a non-empty
run of hexadecimal digits) with bit 23 of its value clear, and its last four bytes (the
whole value when it has at most four) are not a string of the legacy table, `piBoardId`
returns a nil error with bmodel, pcbrev, processor, manufacturer and ram all 0. -/
theorem C5_table_miss_is_soft_success (text v : GoString) (h : FirstRevision text v)
    (hparse : IsHexString v) (hbit : (hexValue v &&& (1 <<< 23)) >>> 23 = 0)
    (hmiss : lastFour v ∉ legacyTable.map (fun row => row.revision)) :
    ∃ b, piBoardId (some text) = .ok b ∧ b.err = none ∧ b.bmodel = 0 ∧ b.pcbrev = 0 ∧
      b.processor = 0 ∧ b.manufacturer = 0 ∧ b.ram = 0 := by
  refine ⟨_, piBoardId_firstRevision text v h, ?_⟩
  rw [decodeRevision_hex none v (lastFour_hex v hparse), legacySwitch_miss _ _ hmiss]
  exact ⟨rfl, rfl, rfl, rfl, rfl, rfl⟩

/-- Witness of C5 amended: the upper-case revision `000D` is not found in the table. -/
theorem C5_table_miss_is_soft_success_witness :
    FirstRevision (str "Revision\t: 000D") (str "000D") ∧
    IsHexString (str "000D") ∧ (hexValue (str "000D") &&& (1 <<< 23)) >>> 23 = 0 ∧
    lastFour (str "000D") ∉ legacyTable.map (fun row => row.revision) ∧
    ∃ b, piBoardId (some (str "Revision\t: 000D")) = .ok b ∧ b.err = none ∧ b.bmodel = 0 ∧
      b.pcbrev = 0 ∧ b.processor = 0 ∧ b.manufacturer = 0 ∧ b.ram = 0 :=
  ⟨firstRevision_of_eval _ _ (by decide), by decide, by decide, by decide,
    C5_table_miss_is_soft_success (str "Revision\t: 000D") (str "000D")
      (firstRevision_of_eval _ _ (by decide)) (by decide) (by decide) (by decide)⟩

/-- C6. The base `Init` selects is a total function of the model value: `0x20000000` for
the models A, B, A+, B+, Alpha, CM, Zero and Zero-W (0, 1, 2, 3, 5, 6, 9, 12) and
`0x3F000000` for every other value, among them Unknown07 (7), 2B (4), 3B (8) and CM3
(10); it is the base of the first mapping `Init` asks for, whatever the system answers. -/
theorem C6_base_address_total (m : Nat) :
    piGpioBase m = (if m ∈ [0, 1, 2, 3, 5, 6, 9, 12] then 0x20000000 else 0x3F000000) ∧
    piGpioBase RPI_MODEL_UNKNOWN = 0x3F000000 ∧ piGpioBase RPI_MODEL_2B = 0x3F000000 ∧
    piGpioBase RPI_MODEL_3B = 0x3F000000 ∧ piGpioBase RPI_MODEL_CM3 = 0x3F000000 ∧
    ∀ (w : World) (g : Globals),
      (mapRegisters w g m).calls.head? = some (.mmap .mem (piGpioBase m + 0x00200000) 4096) := by
  refine ⟨?_, by decide, by decide, by decide, by decide, ?_⟩
  · simp only [piGpioBase, RPI_MODEL_A, RPI_MODEL_B, RPI_MODEL_A_PLUS, RPI_MODEL_B_PLUS,
      RPI_MODEL_ALPHA, RPI_MODEL_CM, RPI_MODEL_ZERO, RPI_MODEL_ZERO_W, List.mem_cons,
      List.mem_singleton, List.not_mem_nil, or_false]
  · intro w g
    unfold mapRegisters
    simp only
    split_ifs <;> rfl

/-- C7 (defect in the code). With `/dev/mem` opened and the four mappings succeeding,
`piBoardId` fails on the Revision value `zzzz` with a non-nil error, yet `Init` returns
nil: the error is overwritten by the result of the first `Mmap` and never tested. -/
theorem C7_board_error_not_surfaced :
    piBoardId (some (str "Revision\t: zzzz")) =
      .ok ⟨0, 0, 0, 0, 0, 0, some (.numSyntaxErr (str "ParseUint") (str "zzzz"))⟩ ∧
    (Init ⟨true, true, some (str "Revision\t: zzzz"), fun _ _ _ => true⟩ noArrays).completion =
      .returned none ∧
    (Init ⟨true, true, none, fun _ _ _ => true⟩ noArrays).completion = .returned none :=
  ⟨by decide, by decide, by decide⟩

/-- C8 (defect in the code). When the open of `/dev/mem` fails and the open of
`/dev/gpiomem` succeeds, `Init` still returns the "can not open" error and maps
nothing: line 59 returns without testing the result of the second open. -/
theorem C8_fallback_open_ignored :
    Init ⟨false, true, some (str "Revision\t: 0002"), fun _ _ _ => true⟩ noArrays =
      ⟨.returned (some .cannotOpen), noArrays, [.openFile .mem, .openFile .gpiomem]⟩ := by
  decide

/-- C9. For every model value `m`, with `b = piGpioBase m`: when the four mappings
succeed, lines 66-115 of `Init` ask for exactly the mappings at `b + 0x00200000` (GPIO),
`b + 0x0020C000` (PWM), `b + 0x00101000` (clock) and `b + 0x00100000` (pads), each of 4096
bytes, and leave four register arrays of 1024 words over them; `Init` itself does so for
the model `piBoardId` returned. -/
theorem C9_four_regions_one_base (w : World) (g : Globals) (m : Nat)
    (hg : w.mmap .mem (piGpioBase m + 0x00200000) 4096 = true)
    (hpwm : w.mmap .mem (piGpioBase m + 0x0020C000) 4096 = true)
    (hclk : w.mmap .mem (piGpioBase m + 0x00101000) 4096 = true)
    (hpads : w.mmap .mem (piGpioBase m + 0x00100000) 4096 = true) :
    mapRegisters w g m =
      ⟨.returned none,
        ⟨some ⟨piGpioBase m + 0x00200000, 1024⟩, some ⟨piGpioBase m + 0x0020C000, 1024⟩,
          some ⟨piGpioBase m + 0x00101000, 1024⟩, some ⟨piGpioBase m + 0x00100000, 1024⟩⟩,
        [.mmap .mem (piGpioBase m + 0x00200000) 4096,
          .mmap .mem (piGpioBase m + 0x0020C000) 4096,
          .mmap .mem (piGpioBase m + 0x00101000) 4096,
          .mmap .mem (piGpioBase m + 0x00100000) 4096]⟩ ∧
    ∀ bd : BoardId, w.openMem = true → piBoardId w.cpuinfo = .ok bd → bd.bmodel = m →
      Init w g =
        ⟨.returned none,
          ⟨some ⟨piGpioBase m + 0x00200000, 1024⟩, some ⟨piGpioBase m + 0x0020C000, 1024⟩,
            some ⟨piGpioBase m + 0x00101000, 1024⟩, some ⟨piGpioBase m + 0x00100000, 1024⟩⟩,
          [.openFile .mem, .readCpuinfo,
            .mmap .mem (piGpioBase m + 0x00200000) 4096,
            .mmap .mem (piGpioBase m + 0x0020C000) 4096,
            .mmap .mem (piGpioBase m + 0x00101000) 4096,
            .mmap .mem (piGpioBase m + 0x00100000) 4096, .close .mem]⟩ := by
  have hmap : mapRegisters w g m =
      ⟨.returned none,
        ⟨some ⟨piGpioBase m + 0x00200000, 1024⟩, some ⟨piGpioBase m + 0x0020C000, 1024⟩,
          some ⟨piGpioBase m + 0x00101000, 1024⟩, some ⟨piGpioBase m + 0x00100000, 1024⟩⟩,
        [.mmap .mem (piGpioBase m + 0x00200000) 4096,
          .mmap .mem (piGpioBase m + 0x0020C000) 4096,
          .mmap .mem (piGpioBase m + 0x00101000) 4096,
          .mmap .mem (piGpioBase m + 0x00100000) 4096]⟩ := by
    have h4096 : uint32BlockSize = 4096 := rfl
    simp [mapRegisters, h4096, hg, hpwm, hclk, hpads]
  refine ⟨hmap, ?_⟩
  intro bd hopen hid hm
  simp [Init, hopen, hid, hm, hmap]

/-- Witness of C9: a Model B (revision `0002`) on a system where every mapping
succeeds; the base is `0x20000000`. -/
theorem C9_four_regions_one_base_witness :
    mapRegisters ⟨true, true, some (str "Revision\t: 0002"), fun _ _ _ => true⟩ noArrays 1 =
      ⟨.returned none,
        ⟨some ⟨0x20200000, 1024⟩, some ⟨0x2020C000, 1024⟩,
          some ⟨0x20101000, 1024⟩, some ⟨0x20100000, 1024⟩⟩,
        [.mmap .mem 0x20200000 4096, .mmap .mem 0x2020C000 4096,
          .mmap .mem 0x20101000 4096, .mmap .mem 0x20100000 4096]⟩ ∧
    Init ⟨true, true, some (str "Revision\t: 0002"), fun _ _ _ => true⟩ noArrays =
      ⟨.returned none,
        ⟨some ⟨0x20200000, 1024⟩, some ⟨0x2020C000, 1024⟩,
          some ⟨0x20101000, 1024⟩, some ⟨0x20100000, 1024⟩⟩,
        [.openFile .mem, .readCpuinfo, .mmap .mem 0x20200000 4096,
          .mmap .mem 0x2020C000 4096, .mmap .mem 0x20101000 4096,
          .mmap .mem 0x20100000 4096, .close .mem]⟩ :=
  ⟨(C9_four_regions_one_base ⟨true, true, some (str "Revision\t: 0002"), fun _ _ _ => true⟩
      noArrays 1 rfl rfl rfl rfl).1,
    (C9_four_regions_one_base ⟨true, true, some (str "Revision\t: 0002"), fun _ _ _ => true⟩
      noArrays 1 rfl rfl rfl rfl).2 ⟨RPI_VERSION_1, RPI_MODEL_B, 0, RPI_MAKER_EGOMAN, 0, 0, none⟩
      rfl (by decide) rfl⟩

/-- C10. When both device opens fail, `Init` returns the "can not open" error, leaves the
four register arrays as they were and asks for no mapping: the only calls made are the
two opens. -/
theorem C10_open_failure_leaves_arrays (w : World) (g : Globals)
    (hmem : w.openMem = false) (hfallback : w.openGpiomem = false) :
    Init w g = ⟨.returned (some .cannotOpen), g, [.openFile .mem, .openFile .gpiomem]⟩ := by
  simp [Init, hmem]

/-- Witness of C10: a first call, with no array mapped yet. -/
theorem C10_open_failure_leaves_arrays_witness :
    Init ⟨false, false, some (str "Revision\t: 0002"), fun _ _ _ => true⟩ noArrays =
      ⟨.returned (some .cannotOpen), noArrays, [.openFile .mem, .openFile .gpiomem]⟩ :=
  C10_open_failure_leaves_arrays ⟨false, false, some (str "Revision\t: 0002"), fun _ _ _ => true⟩
    noArrays rfl rfl

/-- C11. With `/dev/mem` opened and `piBoardId` returning, `Init` asks for the mappings
in the order GPIO, PWM, clock, pads; it returns nil exactly when the four succeed, and
otherwise returns the error of the first mapping that failed, asks for no later mapping
and leaves the register array of that subsystem and of every later one as it was. -/
theorem C11_mapping_failures_reported (w : World) (g : Globals) (bd : BoardId)
    (hopen : w.openMem = true) (hid : piBoardId w.cpuinfo = .ok bd) :
    ((Init w g).completion = .returned none ↔
      (w.mmap .mem (piGpioBase bd.bmodel + 0x00200000) 4096 = true ∧
        w.mmap .mem (piGpioBase bd.bmodel + 0x0020C000) 4096 = true ∧
        w.mmap .mem (piGpioBase bd.bmodel + 0x00101000) 4096 = true ∧
        w.mmap .mem (piGpioBase bd.bmodel + 0x00100000) 4096 = true)) ∧
    (w.mmap .mem (piGpioBase bd.bmodel + 0x00200000) 4096 = false →
      Init w g = ⟨.returned (some .mmapGpioFailed), g,
        [.openFile .mem, .readCpuinfo,
          .mmap .mem (piGpioBase bd.bmodel + 0x00200000) 4096, .close .mem]⟩) ∧
    (w.mmap .mem (piGpioBase bd.bmodel + 0x00200000) 4096 = true →
      w.mmap .mem (piGpioBase bd.bmodel + 0x0020C000) 4096 = false →
      Init w g = ⟨.returned (some .mmapPwmFailed),
        { g with gpioArry := some ⟨piGpioBase bd.bmodel + 0x00200000, 1024⟩ },
        [.openFile .mem, .readCpuinfo,
          .mmap .mem (piGpioBase bd.bmodel + 0x00200000) 4096,
          .mmap .mem (piGpioBase bd.bmodel + 0x0020C000) 4096, .close .mem]⟩) ∧
    (w.mmap .mem (piGpioBase bd.bmodel + 0x00200000) 4096 = true →
      w.mmap .mem (piGpioBase bd.bmodel + 0x0020C000) 4096 = true →
      w.mmap .mem (piGpioBase bd.bmodel + 0x00101000) 4096 = false →
      Init w g = ⟨.returned (some .mmapClockFailed),
        { g with gpioArry := some ⟨piGpioBase bd.bmodel + 0x00200000, 1024⟩,
                 pwmArry := some ⟨piGpioBase bd.bmodel + 0x0020C000, 1024⟩ },
        [.openFile .mem, .readCpuinfo,
          .mmap .mem (piGpioBase bd.bmodel + 0x00200000) 4096,
          .mmap .mem (piGpioBase bd.bmodel + 0x0020C000) 4096,
          .mmap .mem (piGpioBase bd.bmodel + 0x00101000) 4096, .close .mem]⟩) ∧
    (w.mmap .mem (piGpioBase bd.bmodel + 0x00200000) 4096 = true →
      w.mmap .mem (piGpioBase bd.bmodel + 0x0020C000) 4096 = true →
      w.mmap .mem (piGpioBase bd.bmodel + 0x00101000) 4096 = true →
      w.mmap .mem (piGpioBase bd.bmodel + 0x00100000) 4096 = false →
      Init w g = ⟨.returned (some .mmapPadsFailed),
        { g with gpioArry := some ⟨piGpioBase bd.bmodel + 0x00200000, 1024⟩,
                 pwmArry := some ⟨piGpioBase bd.bmodel + 0x0020C000, 1024⟩,
                 clkArr := some ⟨piGpioBase bd.bmodel + 0x00101000, 1024⟩ },
        [.openFile .mem, .readCpuinfo,
          .mmap .mem (piGpioBase bd.bmodel + 0x00200000) 4096,
          .mmap .mem (piGpioBase bd.bmodel + 0x0020C000) 4096,
          .mmap .mem (piGpioBase bd.bmodel + 0x00101000) 4096,
          .mmap .mem (piGpioBase bd.bmodel + 0x00100000) 4096, .close .mem]⟩) := by
  have h4096 : uint32BlockSize = 4096 := rfl
  cases hG : w.mmap .mem (piGpioBase bd.bmodel + 0x00200000) 4096 <;>
  cases hP : w.mmap .mem (piGpioBase bd.bmodel + 0x0020C000) 4096 <;>
  cases hC : w.mmap .mem (piGpioBase bd.bmodel + 0x00101000) 4096 <;>
  cases hD : w.mmap .mem (piGpioBase bd.bmodel + 0x00100000) 4096 <;>
  simp [Init, hopen, hid, mapRegisters, h4096, hG, hP, hC, hD]

/-- Witness of C11: on a Model B where only the PWM mapping fails, `Init` returns
"mmap (PWM) failed" after two mappings, with the GPIO array set and the others nil. -/
theorem C11_mapping_failures_reported_witness :
    Init ⟨true, true, some (str "Revision\t: 0002"),
        fun _ off _ => decide (off ≠ 0x2020C000)⟩ noArrays =
      ⟨.returned (some .mmapPwmFailed), ⟨some ⟨0x20200000, 1024⟩, none, none, none⟩,
        [.openFile .mem, .readCpuinfo, .mmap .mem 0x20200000 4096,
          .mmap .mem 0x2020C000 4096, .close .mem]⟩ :=
  (C11_mapping_failures_reported
    ⟨true, true, some (str "Revision\t: 0002"), fun _ off _ => decide (off ≠ 0x2020C000)⟩
    noArrays ⟨RPI_VERSION_1, RPI_MODEL_B, 0, RPI_MAKER_EGOMAN, 0, 0, none⟩ rfl
    (by decide)).2.2.1 (by decide) (by decide)

/-- C12 (defect in the code). Of the 17 rows of the comment table of known revisions,
`piBoardId` departs from four: `000e` (documented Model B, 512 MB) is not in the switch
and yields the all-zero descriptor; `000d` and `000f` (documented 512 MB) yield ram 0;
`0015` (documented 256 MB) yields ram 1. -/
theorem C12_doc_table_rows_not_honoured :
    (docKnownRevisions.filter fun row => !agreesWithDoc row).map (fun row => row.revision) =
      [str "000d", str "000e", str "000f", str "0015"] ∧
    piBoardId (some (str "Revision\t: 000e")) = .ok ⟨0, 0, 0, 0, 0, 0, none⟩ ∧
    piBoardId (some (str "Revision\t: 000d")) =
      .ok ⟨RPI_VERSION_1_2, RPI_MODEL_B, 0, RPI_MAKER_EGOMAN, 0, 0, none⟩ ∧
    piBoardId (some (str "Revision\t: 000f")) =
      .ok ⟨RPI_VERSION_1_2, RPI_MODEL_B, 0, RPI_MAKER_EGOMAN, 0, 0, none⟩ ∧
    piBoardId (some (str "Revision\t: 0015")) =
      .ok ⟨RPI_VERSION_1_1, RPI_MODEL_A_PLUS, 0, RPI_MAKER_EMBEST, 1, 0, none⟩ :=
  ⟨by decide, by decide, by decide, by decide, by decide⟩

/-- C13 as stated fails: on the text "Hardware : FOO" followed by "Revision : 0002",
both lines reading "key: value", `piGPIOLayout` returns the unsupported-hardware error,
not nil. -/
theorem C13_revision_line_keeps_error :
    Split 0x0A (str "Hardware\t: FOO\nRevision\t: 0002") =
      [str "Hardware\t: FOO", str "Revision\t: 0002"] ∧
    KeyValueLine (str "Hardware\t: FOO") (str "Hardware") (str "FOO") ∧
    KeyValueLine (str "Revision\t: 0002") (str "Revision") (str "0002") ∧
    piGPIOLayout (some (str "Hardware\t: FOO\nRevision\t: 0002")) =
      .ok (some .errHardWare) :=
  ⟨by decide, ⟨str "Hardware\t", str " FOO", [], by decide, by decide, by decide⟩,
    ⟨str "Revision\t", str " 0002", [], by decide, by decide, by decide⟩, by decide⟩

/-- C13, amended. On a text with a Revision line, every line before the first one
reading "key: value", `piGPIOLayout` returns nil when one of those earlier lines is a
Hardware line with the value BCM2708, BCM2709 or BCM2835, and the unsupported-hardware
error otherwise: the Revision line ends the scan and leaves the error as it is. -/
theorem C13_layout_error_follows_hardware (text : GoString) (pre : List GoString)
    (line : GoString) (post : List GoString)
    (hsplit : Split 0x0A text = pre ++ line :: post)
    (hpre : ∀ p ∈ pre, ∃ k x, KeyValueLine p k x ∧ k ≠ str "Revision")
    (hline : ∃ v, KeyValueLine line (str "Revision") v) :
    piGPIOLayout (some text) =
      .ok (if pre.any isSupportedHardwareLine then none else some .errHardWare) := by
  simp only [piGPIOLayout, hsplit]
  exact layoutLoop_append pre line post _ hpre hline

/-- Witness of C13 amended: a BCM2835 Hardware line before the Revision line gives nil. -/
theorem C13_layout_error_follows_hardware_witness :
    piGPIOLayout (some (str "Hardware\t: BCM2835\nRevision\t: a02082")) = .ok none :=
  C13_layout_error_follows_hardware (str "Hardware\t: BCM2835\nRevision\t: a02082")
    [str "Hardware\t: BCM2835"] (str "Revision\t: a02082") [] (by decide)
    (by
      intro p hp
      rw [List.mem_singleton] at hp
      subst hp
      exact ⟨str "Hardware", str "BCM2835",
        ⟨str "Hardware\t", str " BCM2835", [], by decide, by decide, by decide⟩, by decide⟩)
    ⟨str "a02082", str "Revision\t", str " a02082", [], by decide, by decide, by decide⟩

/-- C14 (defect in the code). A line without a colon met before a Revision line makes
`fields[1]` an index out of range: on a text with an empty line between two stanzas, and
on a text that ends with a newline and has no Revision line, both `piBoardId` and
`piGPIOLayout` panic instead of returning. -/
theorem C14_colonless_line_panics :
    Split 0x3A (str "") = [str ""] ∧
    piBoardId (some (str "processor\t: 0\n\nHardware\t: BCM2835\nRevision\t: 0002\n")) =
      .error (.indexOutOfRange 1 1) ∧
    piGPIOLayout (some (str "processor\t: 0\n\nHardware\t: BCM2835\nRevision\t: 0002\n")) =
      .error (.indexOutOfRange 1 1) ∧
    piBoardId (some (str "Hardware\t: BCM2835\n")) = .error (.indexOutOfRange 1 1) ∧
    piGPIOLayout (some (str "Hardware\t: BCM2835\n")) = .error (.indexOutOfRange 1 1) :=
  ⟨by decide, by decide, by decide, by decide, by decide⟩
/-- C15. Whenever `piBoardId` returns without error, the string it parsed is the last
four bytes at most of the first Revision value, the number parsed is below `0x10000`, so
scheme is 0 and the result is the one of the legacy switch, never of the bit-field
branch: processor is 0, the warranty flag is 0 or 1 and is 1 exactly when the Revision
value has more than four bytes, bmodel is one of 0, 1, 2, 3, 6, pcbrev and manufacturer
are at most 2 and ram at most 1. -/
theorem C15_bitfield_branch_never_taken (text : GoString) (b : BoardId)
    (hret : piBoardId (some text) = .ok b) (hok : b.err = none) :
    ∃ v m, FirstRevision text v ∧ (lastFour v).length ≤ 4 ∧
      ParseUint (lastFour v) 16 32 = (m, none) ∧ m < 0x10000 ∧
      (m &&& (1 <<< 23)) >>> 23 = 0 ∧
      b = legacySwitch (lastFour v) ⟨0, 0, 0, 0, 0, if v.length > 4 then 1 else 0, none⟩ ∧
      b.processor = 0 ∧ (b.bWarranty = 0 ∨ b.bWarranty = 1) ∧
      (b.bWarranty = 1 ↔ v.length > 4) ∧ b.bmodel ∈ [0, 1, 2, 3, 6] ∧
      b.pcbrev ≤ 2 ∧ b.manufacturer ≤ 2 ∧ b.ram ≤ 1 := by
  obtain ⟨v, hfirst, hhex, hb0⟩ := piBoardId_success text b hret hok
  obtain ⟨m, hm, hlt⟩ := ParseUint_hex _ hhex (lastFour_length v)
  have hrange := legacySwitch_range (lastFour v)
  have hproc := legacySwitch_processor (lastFour v)
  have hb := hb0
  rw [legacySwitch_fields] at hb
  refine ⟨v, m, hfirst, lastFour_length v, hm, hlt, scheme_zero m hlt, hb0, ?_, ?_, ?_, ?_, ?_,
    ?_, ?_⟩
  · rw [hb]; exact hproc
  · rw [hb]
    by_cases hl : v.length > 4 <;> simp [hl]
  · rw [hb]
    by_cases hl : v.length > 4 <;> simp [hl]
  · rw [hb]; exact hrange.1
  · rw [hb]; exact hrange.2.1
  · rw [hb]; exact hrange.2.2.1
  · rw [hb]; exact hrange.2.2.2

/-- Witness of C15: the over-volted revision `1000003`. -/
theorem C15_bitfield_branch_never_taken_witness :
    ∃ v m, FirstRevision (str "Revision\t: 1000003") v ∧ (lastFour v).length ≤ 4 ∧
      ParseUint (lastFour v) 16 32 = (m, none) ∧ m < 0x10000 ∧
      (m &&& (1 <<< 23)) >>> 23 = 0 ∧
      (⟨1, 1, 0, 1, 0, 1, none⟩ : BoardId) =
        legacySwitch (lastFour v) ⟨0, 0, 0, 0, 0, if v.length > 4 then 1 else 0, none⟩ ∧
      (⟨1, 1, 0, 1, 0, 1, none⟩ : BoardId).processor = 0 ∧
      ((⟨1, 1, 0, 1, 0, 1, none⟩ : BoardId).bWarranty = 0 ∨
        (⟨1, 1, 0, 1, 0, 1, none⟩ : BoardId).bWarranty = 1) ∧
      ((⟨1, 1, 0, 1, 0, 1, none⟩ : BoardId).bWarranty = 1 ↔ v.length > 4) ∧
      (⟨1, 1, 0, 1, 0, 1, none⟩ : BoardId).bmodel ∈ [0, 1, 2, 3, 6] ∧
      (⟨1, 1, 0, 1, 0, 1, none⟩ : BoardId).pcbrev ≤ 2 ∧
      (⟨1, 1, 0, 1, 0, 1, none⟩ : BoardId).manufacturer ≤ 2 ∧
      (⟨1, 1, 0, 1, 0, 1, none⟩ : BoardId).ram ≤ 1 :=
  C15_bitfield_branch_never_taken (str "Revision\t: 1000003") ⟨1, 1, 0, 1, 0, 1, none⟩
    (by decide) rfl

/-- C16. Among the results `piBoardId` returns without error, bmodel, pcbrev, ram and
manufacturer are all 0 exactly when the last four bytes of the Revision value are not a
string of the legacy table; no row of the table is all zero. -/
theorem C16_table_miss_is_all_zero (text v : GoString) (b : BoardId)
    (hfirst : FirstRevision text v) (hret : piBoardId (some text) = .ok b)
    (hok : b.err = none) :
    ((b.bmodel = 0 ∧ b.pcbrev = 0 ∧ b.ram = 0 ∧ b.manufacturer = 0) ↔
      lastFour v ∉ legacyTable.map (fun row => row.revision)) ∧
    ∀ row ∈ legacyTable,
      ¬ (row.bmodel = 0 ∧ row.pcbrev = 0 ∧ row.ram = 0 ∧ row.manufacturer = 0) := by
  refine ⟨?_, by decide⟩
  rw [piBoardId_firstRevision text v hfirst, Except.ok.injEq] at hret
  have hhex : IsHexString (lastFour v) := by
    by_contra hbad
    have := (decodeRevision_err_iff v).2 hbad
    rw [hret] at this
    exact this hok
  rw [decodeRevision_hex none v hhex, legacySwitch_fields] at hret
  subst hret
  constructor
  · intro hz hmem
    exact legacySwitch_hit_nonzero _ hmem hz
  · intro hmiss
    rw [legacySwitch_miss _ _ hmiss]
    simp

/-- Witness of C16: `0008` (Model A by Sony, both coded 0) is told apart from a miss by
its PCB revision 2. -/
theorem C16_table_miss_is_all_zero_witness :
    (((⟨2, 0, 0, 0, 0, 0, none⟩ : BoardId).bmodel = 0 ∧
        (⟨2, 0, 0, 0, 0, 0, none⟩ : BoardId).pcbrev = 0 ∧
        (⟨2, 0, 0, 0, 0, 0, none⟩ : BoardId).ram = 0 ∧
        (⟨2, 0, 0, 0, 0, 0, none⟩ : BoardId).manufacturer = 0) ↔
      lastFour (str "0008") ∉ legacyTable.map (fun row => row.revision)) ∧
    ∀ row ∈ legacyTable,
      ¬ (row.bmodel = 0 ∧ row.pcbrev = 0 ∧ row.ram = 0 ∧ row.manufacturer = 0) :=
  C16_table_miss_is_all_zero (str "Revision\t: 0008") (str "0008") ⟨2, 0, 0, 0, 0, 0, none⟩
    (firstRevision_of_eval _ _ (by decide)) (by decide) rfl

/-- C17. On a text each line of which holds a colon, `piBoardId` returns, and its error
is nil when the last four bytes at most of the first Revision value (the empty string
when no line has the key Revision) are a non-empty run of hexadecimal digits, and the
syntax error of `ParseUint` on those bytes otherwise; so the error is non-nil exactly
when they are not such a run, a text without Revision line fails with the parse error of
the empty string, and the `ErrRevision` error is never returned. -/
theorem C17_exact_failure_condition (text : GoString)
    (hcolon : ∀ l ∈ Split 0x0A text, 0x3A ∈ l) :
    ∃ b, piBoardId (some text) = .ok b ∧
      b.err = (if IsHexString (lastFour (firstRevisionValue text)) then none
        else some (.numSyntaxErr (str "ParseUint") (lastFour (firstRevisionValue text)))) ∧
      (b.err ≠ none ↔ ¬ IsHexString (lastFour (firstRevisionValue text))) ∧
      b.err ≠ some .errRevision ∧
      ((Split 0x0A text).find? (fun l =>
          decide (TrimSpace ((Split 0x3A l).headD []) = str "Revision")) = none →
        b.err = some (.numSyntaxErr (str "ParseUint") [])) := by
  have hloop := revisionLoop_colons (Split 0x0A text) (some .errRevision) [] hcolon
  have herr : ∀ (e : Option GoError) (v : GoString), (e = none ∨ v = []) →
      (decodeRevision e v).err = (if IsHexString (lastFour v) then none
        else some (.numSyntaxErr (str "ParseUint") (lastFour v))) := by
    intro e v hev
    by_cases hhex : IsHexString (lastFour v)
    · rcases hev with he | hv
      · rw [if_pos hhex, he, decodeRevision_hex none v hhex, legacySwitch_fields]
      · subst hv
        exact absurd hhex (by decide)
    · rw [if_neg hhex, decodeRevision_bad e v hhex]
  cases hfind : (Split 0x0A text).find? (fun l =>
      decide (TrimSpace ((Split 0x3A l).headD []) = str "Revision")) with
  | none =>
    have hval : firstRevisionValue text = [] := by
      unfold firstRevisionValue
      rw [hfind]
    rw [hfind] at hloop
    have hb : piBoardId (some text) = .ok (decodeRevision (some .errRevision) []) := by
      simp [piBoardId, hloop]
    have h1 := herr (some .errRevision) [] (Or.inr rfl)
    refine ⟨_, hb, by rw [hval]; exact h1, ?_, ?_, ?_⟩
    · rw [hval]; decide
    · decide
    · intro _; decide
  | some l =>
    have hval : firstRevisionValue text = TrimSpace ((Split 0x3A l).getD 1 []) := by
      unfold firstRevisionValue
      rw [hfind]
    rw [hfind] at hloop
    have hb : piBoardId (some text) =
        .ok (decodeRevision none (TrimSpace ((Split 0x3A l).getD 1 []))) := by
      simp [piBoardId, hloop]
    have h1 := herr none (TrimSpace ((Split 0x3A l).getD 1 [])) (Or.inl rfl)
    rw [← hval] at hb h1
    refine ⟨_, hb, h1, ?_, ?_, ?_⟩
    · rw [h1]
      by_cases hhex : IsHexString (lastFour (firstRevisionValue text)) <;> simp [hhex]
    · rw [h1]
      by_cases hhex : IsHexString (lastFour (firstRevisionValue text)) <;> simp [hhex]
    · intro h; simp at h

/-- Witness of C17: a text without Revision line fails with the parse error of the
empty string. -/
theorem C17_exact_failure_condition_witness :
    (∀ l ∈ Split 0x0A (str "Hardware\t: BCM2835\nSerial\t\t: 00000000"), 0x3A ∈ l) ∧
    ∃ b, piBoardId (some (str "Hardware\t: BCM2835\nSerial\t\t: 00000000")) = .ok b ∧
      b.err = (if IsHexString
          (lastFour (firstRevisionValue (str "Hardware\t: BCM2835\nSerial\t\t: 00000000")))
        then none
        else some (.numSyntaxErr (str "ParseUint")
          (lastFour (firstRevisionValue (str "Hardware\t: BCM2835\nSerial\t\t: 00000000"))))) ∧
      (b.err ≠ none ↔ ¬ IsHexString
        (lastFour (firstRevisionValue (str "Hardware\t: BCM2835\nSerial\t\t: 00000000")))) ∧
      b.err ≠ some .errRevision ∧
      ((Split 0x0A (str "Hardware\t: BCM2835\nSerial\t\t: 00000000")).find? (fun l =>
          decide (TrimSpace ((Split 0x3A l).headD []) = str "Revision")) = none →
        b.err = some (.numSyntaxErr (str "ParseUint") [])) :=
  ⟨by decide,
    C17_exact_failure_condition (str "Hardware\t: BCM2835\nSerial\t\t: 00000000") (by decide)⟩

/-- C18 (defect in the code). The constants `PwmModeMS` and `PwmModeBal` are both 0, so
the two PWM modes are the same value, whereas the constants of the block before them
(`PullOff`, `PullDown`, `PullUp`) are pairwise distinct. -/
theorem C18_pwm_modes_coincide :
    PwmModeMS = PwmModeBal ∧ PwmModeMS = 0 ∧ PwmModeBal = 0 ∧
    [PullOff, PullDown, PullUp].Nodup :=
  ⟨rfl, rfl, rfl, by decide⟩

end WiringPi
